import Mathlib

/-!
Shallow embedding of the job-sync and job-scoring pipeline of the
AI-Job-Match repository, together with proofs that settle the frozen
claims about it.

The embedded code lives in:
  * `src/lib/ai.ts` — `scoreJobsForResume` (LLM scoring with keyword fallback);
  * `src/unnamed/part_011` (the `@/lib/utils` module) — `withRetry`;
  * `src/lib/apifyActors.ts` — `syncJobsToDatabase`;
  * `src/lib/browserAIJobs.ts` — `fetchLatestJobs`, `getMockJobs`.

Modelling conventions:
  * JavaScript strings are `String`; the only falsy string is `""`, so a
    JS `a || b` on strings is `if a = "" then b else a` (`jsOr`).
  * JSON numbers are `ℚ`; `Math.round` rounds half toward `+∞`, which is
    exactly Mathlib's `round` (`round x = ⌊x + 1/2⌋`), see `jsRound`.
  * Asynchronous collaborator calls (the OpenAI client, the Browse AI
    client, Prisma persistence) are oracles passed as explicit arguments:
    an `Except`-valued fetch result, a per-attempt outcome function for
    retries, and a per-item failure oracle for persistence.  A thrown JS
    exception is an `Except.error` / `Option.some` outcome; the embedded
    functions themselves are total, which models "does not throw".
  * The database is a list of rows in insertion order; Prisma's
    `findFirst` is `List.find?`, `update` (by the primary key `id`)
    replaces the row with that id, `create` appends a fresh row.
    Timestamps are naturals (`now` is passed in).
  * The code's `Promise.all` batches issue the same per-item transitions;
    the model sequentialises them in input order, which preserves the
    per-item counts and error accumulation the claims speak about.
-/

/-- JavaScript `a || b` restricted to strings: `""` is the only falsy string. -/
def jsOr (a b : String) : String := if a = "" then b else a

/-- JavaScript `Math.round`: round half toward `+∞`, i.e. `⌊q + 1/2⌋`,
which is Mathlib's `round` on `ℚ`. -/
def jsRound (q : ℚ) : ℤ := round q

/-- Whether `pat` occurs at the very start of `text` (on character lists). -/
def startsWithChars : List Char → List Char → Bool
  | [], _ => true
  | _ :: _, [] => false
  | c :: cs, d :: ds => c == d && startsWithChars cs ds

/-- Whether `pat` occurs contiguously anywhere in `text` (on character
lists): at the start, or in the tail. -/
def hasSubstrChars (pat : List Char) : List Char → Bool
  | [] => startsWithChars pat []
  | d :: ds => startsWithChars pat (d :: ds) || hasSubstrChars pat ds

/-- JavaScript `text.includes(pat)`: contiguous substring containment,
character by character. -/
def jsIncludes (text pat : String) : Bool := hasSubstrChars pat.data text.data

/-- JavaScript `s.toLowerCase()`, character by character (`Char.toLower`
agrees with JS on the ASCII range the scraped data uses). -/
def jsToLower (s : String) : String := ⟨s.data.map Char.toLower⟩

/-- JavaScript `s.trim()`: strip leading and trailing whitespace. -/
def jsTrim (s : String) : String :=
  ⟨((s.data.dropWhile Char.isWhitespace).reverse.dropWhile Char.isWhitespace).reverse⟩

/-! ## `src/lib/ai.ts` — `scoreJobsForResume`

The function receives a parsed resume and a job list.  The parts of the
inputs the scoring logic actually reads are the resume's keyword list
(`resume.keywords || resume.skills || []`) and, per job, `id`, `title`,
`company`, `fullDescription` and `shortDescription`. -/

/-- A job as read by `scoreJobsForResume` (`src/lib/ai.ts:72-77,193-207`).
`fullDescription = ""` models an absent or empty description (both are
falsy in JS, so `||` treats them alike). -/
structure Job where
  id : String
  title : String
  company : String
  fullDescription : String
  shortDescription : String
deriving Repr, DecidableEq

/-- One element of the returned list: `{ jobId, score }`. -/
structure ScoreResult where
  jobId : String
  score : ℤ
deriving Repr, DecidableEq

/-- The concatenated, lowercased job text used by the keyword fallback:
`` `${job.title} ${job.company} ${job.fullDescription || job.shortDescription || ""}`.toLowerCase() ``
(`src/lib/ai.ts:194`). -/
def fallbackJobText (job : Job) : String :=
  jsToLower (job.title ++ " " ++ job.company ++ " "
    ++ jsOr job.fullDescription (jsOr job.shortDescription ""))

/-- The fallback's per-keyword filter
(`src/lib/ai.ts:195-197`):
`keyword && keyword.trim() && jobText.includes(keyword.toLowerCase())`. -/
def keywordMatched (jobText : String) (kw : String) : Bool :=
  kw ≠ "" && jsTrim kw ≠ "" && jsIncludes jobText (jsToLower kw)

/-- The keyword-fallback score of one job (`src/lib/ai.ts:193-207`). -/
def fallbackScore (keywords : List String) (job : Job) : ScoreResult :=
  let jobText := fallbackJobText job
  let keywordMatches := (keywords.filter (fun kw => keywordMatched jobText kw)).length
  let matchPercentage : ℚ :=
    if keywords.length > 0 then
      min 100 (50 + ((keywordMatches : ℚ) / (keywords.length : ℚ)) * 50)
    else 50
  ⟨job.id, jsRound matchPercentage⟩

/-- The fallback branch: one fallback score per input job, in order
(`src/lib/ai.ts:193` is a `jobs.map`). -/
def keywordFallbackScores (keywords : List String) (jobs : List Job) : List ScoreResult :=
  jobs.map (fallbackScore keywords)

/-- One `{ jobId, score }` item of the parsed LLM response.  `score = none`
models an entry whose `score` field is absent (JS `undefined`). -/
structure ScoreEntry where
  jobId : String
  score : Option ℚ
deriving Repr, DecidableEq

/-- The value paired with a key in the object-form response
(`src/lib/ai.ts:146-149`): a bare number, an object carrying a numeric
`score` field, or anything else. -/
inductive ObjValue where
  | num (q : ℚ)
  | objWithScore (q : ℚ)
  | other
deriving Repr, DecidableEq

/-- `typeof data === "number" ? data : (data?.score || 50)`
(`src/lib/ai.ts:148`).  Note `||`, not `??`: a numeric `score` field equal
to `0` is falsy and becomes `50`. -/
def objValueScore : ObjValue → ℚ
  | .num q => q
  | .objWithScore q => if q = 0 then 50 else q
  | .other => 50

/-- Shape of the LLM's raw body after `JSON.parse`
(`src/lib/ai.ts:127-150`): `notJson` models a body `JSON.parse` rejects
(e.g. the string `"not json"`), which the code turns into a thrown
`Error`; otherwise the parsed value either has a `scores` array, is
itself an array, or is some other object whose entries are mined for
scores. -/
inductive LLMResponse where
  | notJson
  | scoresField (scores : List ScoreEntry)
  | directArray (scores : List ScoreEntry)
  | objectForm (entries : List (String × ObjValue))
deriving Repr, DecidableEq

/-- Extraction of the `scores` list from a parsed response
(`src/lib/ai.ts:127-150`).  `none` is the thrown parse error, which the
surrounding `try` converts into the fallback path. -/
def extractedScores : LLMResponse → Option (List ScoreEntry)
  | .notJson => none
  | .scoresField scores => some scores
  | .directArray scores => some scores
  | .objectForm entries =>
      some (entries.map (fun e => ⟨e.1, some (objValueScore e.2)⟩))

/-- Outcome of the retried OpenAI call in `scoreJobsForResume`
(`src/lib/ai.ts:105-124`): either `withRetry` ultimately rethrew (with
the HTTP status of the error, when it carried one), or a raw body was
received. -/
inductive LLMResult where
  | callFailed (status : Option ℤ)
  | responded (r : LLMResponse)
deriving Repr, DecidableEq

/-- `Math.max(0, Math.min(100, Math.round(score)))` (`src/lib/ai.ts:167`). -/
def validateScore (score : ℚ) : ℤ := max 0 (min 100 (jsRound score))

/-- The LLM-path result construction (`src/lib/ai.ts:162-173`):
for each input job, find its entry by `jobId`, default the raw score to
`50` when the entry or its `score` field is missing, then round and
clamp. -/
def llmPathScores (jobs : List Job) (scores : List ScoreEntry) : List ScoreResult :=
  jobs.map (fun job =>
    let scoreData := scores.find? (fun s => s.jobId == job.id)
    let score : ℚ :=
      match scoreData with
      | some e => e.score.getD 50
      | none => 50
    ⟨job.id, validateScore score⟩)

/-- `scoreJobsForResume` (`src/lib/ai.ts:38-212`), as a function of the
resume's keyword list, the job list, and the outcome of the (retried)
LLM call.  An empty job list returns `[]` before the call is made; a
failed call or an unparseable body lands in the keyword fallback via the
surrounding `try`/`catch`. -/
def scoreJobsForResume (keywords : List String) (jobs : List Job)
    (llm : LLMResult) : List ScoreResult :=
  if jobs.isEmpty then []
  else
    match llm with
    | .callFailed _ => keywordFallbackScores keywords jobs
    | .responded r =>
        match extractedScores r with
        | none => keywordFallbackScores keywords jobs
        | some scores => llmPathScores jobs scores

/-! ## `src/unnamed/part_011` (the `@/lib/utils` module) — `withRetry`

`withRetry(fn, {maxRetries, initialDelay, maxDelay, retryable})` runs
`fn` in a loop `for attempt in 0..maxRetries`; on an error it rethrows
when `attempt === maxRetries` or the error is not retryable, and
otherwise sleeps `delay` (starting at `initialDelay`, then
`delay = min(delay * 2, maxDelay)`) and retries.  The model indexes the
oracle `fn` by the attempt number and records, besides the final result,
how many times `fn` was invoked and which delays were slept. -/

/-- Result of a (modelled) `withRetry` run: the value or rethrown error,
the number of invocations of `fn`, and the slept delays in order. -/
structure RetryOutcome (E A : Type) where
  result : Except E A
  attempts : ℕ
  delays : List ℕ
deriving Repr

/-- The retry loop (`src/unnamed/part_011:54-68`).  `remaining` is
`maxRetries - attempt`, so `remaining = 0` is the loop's
`attempt === maxRetries` rethrow condition. -/
def withRetryAux {E A : Type} (fn : ℕ → Except E A) (retryable : E → Bool)
    (maxDelay : ℕ) : ℕ → ℕ → ℕ → RetryOutcome E A
  | attempt, _, 0 =>
      match fn attempt with
      | .ok a => ⟨.ok a, attempt + 1, []⟩
      | .error e => ⟨.error e, attempt + 1, []⟩
  | attempt, delay, remaining + 1 =>
      match fn attempt with
      | .ok a => ⟨.ok a, attempt + 1, []⟩
      | .error e =>
          if retryable e then
            let rest := withRetryAux fn retryable maxDelay
              (attempt + 1) (min (delay * 2) maxDelay) remaining
            ⟨rest.result, rest.attempts, delay :: rest.delays⟩
          else ⟨.error e, attempt + 1, []⟩

/-- `withRetry` (`src/unnamed/part_011:28-71`) with explicit options. -/
def withRetry {E A : Type} (fn : ℕ → Except E A) (retryable : E → Bool)
    (maxRetries initialDelay maxDelay : ℕ) : RetryOutcome E A :=
  withRetryAux fn retryable maxDelay 0 initialDelay maxRetries

/-- An error as inspected by the retry predicates: `none` models an error
object without a `status` field (`"status" in error` is false). -/
def LLMError : Type := Option ℤ

/-- The `retryable` predicate `scoreJobsForResume` passes to `withRetry`
(`src/lib/ai.ts:114-120`): retry exactly on status `429` or status
`≥ 500`; an error without a `status` field is not retried. -/
def scoreRetryable (e : LLMError) : Bool :=
  match e with
  | some status => status == 429 || status ≥ 500
  | none => false

/-- The retried OpenAI call of `scoreJobsForResume`
(`src/lib/ai.ts:105-122`): `withRetry` with `maxRetries: 3`,
`initialDelay: 1000`, the default `maxDelay` of `10000`, and
`scoreRetryable`. -/
def scoreJobsRetry {A : Type} (fn : ℕ → Except LLMError A) : RetryOutcome LLMError A :=
  withRetry fn scoreRetryable 3 1000 10000

/-! ## `src/lib/apifyActors.ts` — `syncJobsToDatabase` -/

/-- A scraped job (`ScrapedJob` in `src/lib/browserAIJobs.ts:8-16`); all
fields are strings, `sourceUrl = "#"` is the placeholder sentinel and
`sourceUrl = ""` models an absent (falsy) URL. -/
structure ScrapedJob where
  title : String
  company : String
  location : String
  jobType : String
  shortDescription : String
  fullDescription : String
  sourceUrl : String
deriving Repr, DecidableEq

/-- A persisted `Job` row (Prisma model `Job`, `src/prisma`): `sourceUrl`
is nullable, timestamps are modelled as naturals. -/
structure JobRow where
  id : ℕ
  title : String
  company : String
  location : String
  jobType : String
  shortDescription : String
  fullDescription : String
  sourceUrl : Option String
  postedAt : ℕ
  createdAt : ℕ
  updatedAt : ℕ
deriving Repr, DecidableEq

/-- The `findFirst` `where` clause of `syncJobsToDatabase`
(`src/lib/apifyActors.ts:546-558`): an `OR` of `sourceUrl` equality and,
when the scraped `sourceUrl` is the sentinel `"#"` or absent, the
composite (`title`,`company`,`location`) condition. -/
def jobMatches (j : ScrapedJob) (row : JobRow) : Bool :=
  row.sourceUrl == some j.sourceUrl ||
    ((j.sourceUrl == "#" || j.sourceUrl == "") &&
      (row.title == j.title && row.company == j.company && row.location == j.location))

/-- `prisma.job.findFirst` over the modelled database: first row (in
insertion order) satisfying the `where` clause. -/
def findExistingJob (j : ScrapedJob) (db : List JobRow) : Option JobRow :=
  db.find? (jobMatches j)

/-- The `update` data of the found branch (`src/lib/apifyActors.ts:562-575`):
every scraped scalar overwrites the row, `updatedAt := now`;
`sourceUrl: scrapedJob.sourceUrl || existingJob.sourceUrl` keeps the old
URL only when the scraped one is falsy (`""`).  `id`, `createdAt` and
`postedAt` are not mentioned and stay. -/
def updatedRow (now : ℕ) (j : ScrapedJob) (row : JobRow) : JobRow :=
  { row with
    title := j.title
    company := j.company
    location := j.location
    jobType := j.jobType
    shortDescription := j.shortDescription
    fullDescription := j.fullDescription
    sourceUrl := if j.sourceUrl = "" then row.sourceUrl else some j.sourceUrl
    updatedAt := now }

/-- The `create` data of the not-found branch
(`src/lib/apifyActors.ts:579-590`): `sourceUrl || null`,
`postedAt: new Date()`; `createdAt`/`updatedAt` take Prisma's defaults
(now). -/
def createdRow (now : ℕ) (newId : ℕ) (j : ScrapedJob) : JobRow :=
  { id := newId
    title := j.title
    company := j.company
    location := j.location
    jobType := j.jobType
    shortDescription := j.shortDescription
    fullDescription := j.fullDescription
    sourceUrl := if j.sourceUrl = "" then none else some j.sourceUrl
    postedAt := now
    createdAt := now
    updatedAt := now }

/-- `prisma.job.update({ where: { id }, data })`: replace the row with
the given primary key. -/
def dbUpdate (db : List JobRow) (id : ℕ) (newRow : JobRow) : List JobRow :=
  db.map (fun r => if r.id = id then newRow else r)

/-- Accumulated state of one `syncJobsToDatabase` run: the database,
the next fresh row id, and the `created`/`updated`/`errors` accumulators
(`src/lib/apifyActors.ts:509-511`). -/
structure SyncState where
  db : List JobRow
  nextId : ℕ
  created : ℕ
  updated : ℕ
  errors : List String
deriving Repr

/-- Processing of one scraped job (`src/lib/apifyActors.ts:538-598`).
`failure` is the persistence oracle for this item: `some msg` means the
Prisma calls for this item throw an error with that message, which the
per-item `catch` turns into the string
`Error syncing job "<title>" at <company>: <msg>` appended to `errors`
while counts and database are left alone; `none` means persistence
succeeds and the item is reconciled via `findFirst` then
`update`/`create`. -/
def syncOneJob (now : ℕ) (failure : Option String) (st : SyncState)
    (j : ScrapedJob) : SyncState :=
  match failure with
  | some msg =>
      { st with errors := st.errors ++
          ["Error syncing job \"" ++ j.title ++ "\" at " ++ j.company ++ ": " ++ msg] }
  | none =>
      match findExistingJob j st.db with
      | some row =>
          { st with
            db := dbUpdate st.db row.id (updatedRow now j row)
            updated := st.updated + 1 }
      | none =>
          { st with
            db := st.db ++ [createdRow now st.nextId j]
            nextId := st.nextId + 1
            created := st.created + 1 }

/-- The batched loop of `syncJobsToDatabase`
(`src/lib/apifyActors.ts:534-600`), sequentialised in input order; the
index feeds the per-item failure oracle. -/
def syncAllJobs (now : ℕ) (failures : ℕ → Option String) :
    List ScrapedJob → ℕ → SyncState → SyncState
  | [], _, st => st
  | j :: rest, i, st =>
      syncAllJobs now failures rest (i + 1) (syncOneJob now (failures i) st j)

/-- The `SyncResult` value `syncJobsToDatabase` resolves with
(`src/lib/apifyActors.ts:503-508`). -/
structure SyncResult where
  created : ℕ
  updated : ℕ
  total : ℕ
  errors : List String
deriving Repr, DecidableEq

/-- `syncJobsToDatabase` (`src/lib/apifyActors.ts:503-616`).
`fetchResult` is the outcome of `fetchLatestJobs` (an `Except.error msg`
models a thrown error, caught at `src/lib/apifyActors.ts:610-615` before
any item was processed, hence `created = updated = 0` there); an empty
fetched list returns the soft-failure result of
`src/lib/apifyActors.ts:525-528`.  Returns the `SyncResult` and the
final database. -/
def syncJobsToDatabase (fetchResult : Except String (List ScrapedJob))
    (now : ℕ) (failures : ℕ → Option String) (db : List JobRow)
    (nextId : ℕ) : SyncResult × List JobRow :=
  match fetchResult with
  | .error msg => (⟨0, 0, 0, ["Failed to sync jobs: " ++ msg]⟩, db)
  | .ok jobs =>
      if jobs.isEmpty then
        (⟨0, 0, 0, ["No jobs fetched from Browser AI"]⟩, db)
      else
        let st := syncAllJobs now failures jobs 0 ⟨db, nextId, 0, 0, []⟩
        (⟨st.created, st.updated, jobs.length, st.errors⟩, st.db)

/-! ## `src/lib/browserAIJobs.ts` — `fetchLatestJobs` and the mock fallback -/

/-- The parts of `BROWSEAI_CONFIG` read by `fetchLatestJobs`
(`src/lib/browserAIJobs.ts:109-125`): `apiKey = ""` models a missing
(falsy) key and `defaultRobotId = ""` a missing default id. -/
structure BrowseAIConfig where
  apiKey : String
  robotIds : List String
  defaultRobotId : String
deriving Repr

/-- Robot-id selection (`src/lib/browserAIJobs.ts:115-119`): prefer the
comma-separated `robotIds`, else the single `defaultRobotId` unless it
is missing or the `"default-robot-id"` placeholder. -/
def configuredRobotIds (cfg : BrowseAIConfig) : List String :=
  if cfg.robotIds.length > 0 then cfg.robotIds
  else if cfg.defaultRobotId ≠ "" && cfg.defaultRobotId ≠ "default-robot-id" then
    [cfg.defaultRobotId]
  else []

/-- `getMockJobs` (`src/lib/browserAIJobs.ts:160-181`): the fixed
two-element mock list. -/
def getMockJobs : List ScrapedJob :=
  [{ title := "Senior Frontend Engineer (Mock)"
     company := "TechCorp AI"
     location := "Remote"
     jobType := "Full-time"
     shortDescription := "We are looking for a React expert to build our next-gen AI interface."
     fullDescription := "We are looking for a Senior Frontend Engineer to join our team. You will be responsible for building the UI for our AI-powered platform. Requirements: React, TypeScript, Tailwind CSS, Next.js. Experience with AI integrations is a plus."
     sourceUrl := "https://example.com/jobs/1" },
   { title := "Full Stack Developer (Mock)"
     company := "StartupX"
     location := "San Francisco, CA"
     jobType := "Hybrid"
     shortDescription := "Join a fast-paced startup building the future of finance."
     fullDescription := "StartupX is seeking a Full Stack Developer. You will work on both the frontend and backend of our fintech application. Stack: Node.js, PostgreSQL, React. Competitive salary and equity."
     sourceUrl := "https://example.com/jobs/2" }]

/-- The triple comparison of the duplicate filter
(`src/lib/browserAIJobs.ts:138-142`). -/
def sameTriple (a b : ScrapedJob) : Bool :=
  a.title == b.title && a.company == b.company && a.location == b.location

/-- The duplicate filter (`src/lib/browserAIJobs.ts:137-143`):
`allJobs.filter((job, i, self) => i === self.findIndex(sameTriple))`
keeps exactly the first occurrence of each (`title`,`company`,`location`)
triple; `seen` accumulates the kept prefix. -/
def dedupeJobsAux : List ScrapedJob → List ScrapedJob → List ScrapedJob
  | [], _ => []
  | j :: rest, seen =>
      if seen.any (fun s => sameTriple s j) then dedupeJobsAux rest seen
      else j :: dedupeJobsAux rest (seen ++ [j])

/-- Duplicate removal over the combined robot output. -/
def dedupeJobs (jobs : List ScrapedJob) : List ScrapedJob :=
  dedupeJobsAux jobs []

/-- `fetchLatestJobs` (`src/lib/browserAIJobs.ts:95-158`).
`robotFetch` is the collaborator oracle: `Except.error ()` models the
whole `try` body throwing (caught at line 154-157), and `Except.ok f`
gives each robot's scraped list (`fetchJobsFromRobot` itself never
throws: it catches and returns `[]`, line 88-92).  Every degenerate case
falls back to `getMockJobs`. -/
def fetchLatestJobs (cfg : BrowseAIConfig)
    (robotFetch : Except Unit (String → List ScrapedJob)) : List ScrapedJob :=
  match robotFetch with
  | .error _ => getMockJobs
  | .ok fetchRobot =>
      if cfg.apiKey = "" then getMockJobs
      else
        let robotIds := configuredRobotIds cfg
        if robotIds.isEmpty then getMockJobs
        else
          let allJobs := (robotIds.map fetchRobot).flatten
          let uniqueJobs := dedupeJobs allJobs
          if uniqueJobs.isEmpty then getMockJobs else uniqueJobs

/-! ## Concrete fixtures used by witnesses and counterexamples -/

/-- A job whose text contains the keyword `python` but not `rust`. -/
def pyJob : Job :=
  ⟨"j1", "Backend Developer", "Acme", "We need python experience", ""⟩

/-- A persisted placeholder row: `sourceUrl` is the sentinel `"#"`. -/
def rowA : JobRow :=
  ⟨0, "Engineer", "Acme", "NY", "Full-time", "sd", "fd", some "#", 5, 5, 5⟩

/-- A scraped placeholder posting differing from `rowA` in title, company
and location, with the same sentinel `sourceUrl` `"#"`. -/
def jobB : ScrapedJob :=
  ⟨"Designer", "Beta", "LA", "Full-time", "sd2", "fd2", "#"⟩

/-! ## Definitions written from the claims' words (for comparison)

C3 states a fallback-score formula; the two definitions below transcribe
that formula so the code's `fallbackScore` can be compared against it. -/

/-- Modelled from the claim C3's words, not from the code: a keyword is
"matched" exactly when it case-insensitively occurs as a substring of the
concatenated job text (no further filtering). -/
def claimMatchedCount (keywords : List String) (job : Job) : ℕ :=
  (keywords.filter (fun kw => jsIncludes (fallbackJobText job) (jsToLower kw))).length

/-- Modelled from the claim C3's words: the score
`round(50 + 50 * (matchedKeywordCount / totalKeywordCount))`, with every
job scoring exactly `50` when the resume has zero keywords. -/
def claimFallbackScoreValue (keywords : List String) (job : Job) : ℤ :=
  if keywords.length = 0 then 50
  else jsRound (50 + 50 * ((claimMatchedCount keywords job : ℚ) / (keywords.length : ℚ)))

/-- The amended claim's "matched" count: a keyword counts as matched
exactly when it is nonempty, not whitespace-only, and case-insensitively
occurs as a substring of the concatenated job text (this is the filter
the code applies at `src/lib/ai.ts:195-197`). -/
def amendedMatchedCount (keywords : List String) (job : Job) : ℕ :=
  (keywords.filter (fun kw =>
    kw ≠ "" && jsTrim kw ≠ "" && jsIncludes (fallbackJobText job) (jsToLower kw))).length

/-- The amended claim's score formula, with the corrected "matched"
notion. -/
def amendedFallbackScoreValue (keywords : List String) (job : Job) : ℤ :=
  if keywords.length = 0 then 50
  else jsRound (50 + 50 * ((amendedMatchedCount keywords job : ℚ) / (keywords.length : ℚ)))

/-! ## Helper lemmas on rounding and clamping -/

lemma jsRound_nonneg {q : ℚ} (h : 0 ≤ q) : 0 ≤ jsRound q := by
  rw [jsRound, round_eq]
  exact Int.floor_nonneg.mpr (by linarith)

lemma jsRound_le_hundred {q : ℚ} (h : q ≤ 100) : jsRound q ≤ 100 := by
  rw [jsRound, round_eq]
  calc ⌊q + 1 / 2⌋ ≤ ⌊(100 : ℚ) + 1 / 2⌋ := Int.floor_le_floor (by linarith)
    _ = 100 := by norm_num

lemma jsRound_fifty : jsRound 50 = 50 := by norm_num [jsRound]

lemma validateScore_nonneg (q : ℚ) : 0 ≤ validateScore q := le_max_left _ _

lemma validateScore_le_hundred (q : ℚ) : validateScore q ≤ 100 :=
  max_le (by norm_num) (min_le_left _ _)

lemma validateScore_fifty : validateScore 50 = 50 := by
  rw [validateScore, jsRound_fifty]; norm_num

lemma fallbackScore_jobId (keywords : List String) (job : Job) :
    (fallbackScore keywords job).jobId = job.id := rfl

lemma fallbackScore_bounds (keywords : List String) (job : Job) :
    0 ≤ (fallbackScore keywords job).score ∧ (fallbackScore keywords job).score ≤ 100 := by
  rw [fallbackScore]
  by_cases h : keywords.length > 0
  · simp only [h, if_true]
    have hr : (0 : ℚ) ≤
        ((keywords.filter (fun kw => keywordMatched (fallbackJobText job) kw)).length : ℚ) /
          (keywords.length : ℚ) * 50 := by positivity
    constructor
    · exact jsRound_nonneg (le_min (by norm_num) (by linarith))
    · exact jsRound_le_hundred (min_le_left _ _)
  · simp only [h, if_false]
    constructor
    · exact jsRound_nonneg (by norm_num)
    · exact jsRound_le_hundred (by norm_num)

lemma llmPathScore_jobId (jobs : List Job) (scores : List ScoreEntry) {r : ScoreResult}
    (hr : r ∈ llmPathScores jobs scores) : 0 ≤ r.score ∧ r.score ≤ 100 := by
  rw [llmPathScores] at hr
  obtain ⟨job, -, rfl⟩ := List.mem_map.mp hr
  exact ⟨validateScore_nonneg _, validateScore_le_hundred _⟩

lemma map_jobId_fallback (keywords : List String) (jobs : List Job) :
    (keywordFallbackScores keywords jobs).map ScoreResult.jobId = jobs.map Job.id := by
  rw [keywordFallbackScores, List.map_map]
  rfl

lemma map_jobId_llmPath (jobs : List Job) (scores : List ScoreEntry) :
    (llmPathScores jobs scores).map ScoreResult.jobId = jobs.map Job.id := by
  rw [llmPathScores, List.map_map]
  rfl

/-- C2: `scoreJobsForResume` returns exactly one entry per input job, with
the same job ids in input order, every score an integer in `[0, 100]`,
on the LLM path and the fallback path alike; the empty job list yields
the empty result. -/
theorem C2_score_completeness (keywords : List String) (jobs : List Job) (llm : LLMResult) :
    (scoreJobsForResume keywords jobs llm).map ScoreResult.jobId = jobs.map Job.id ∧
    (∀ r ∈ scoreJobsForResume keywords jobs llm, 0 ≤ r.score ∧ r.score ≤ 100) ∧
    (jobs = [] → scoreJobsForResume keywords jobs llm = []) := by
  have fallback_part :
      (keywordFallbackScores keywords jobs).map ScoreResult.jobId = jobs.map Job.id ∧
      (∀ r ∈ keywordFallbackScores keywords jobs, 0 ≤ r.score ∧ r.score ≤ 100) := by
    refine ⟨map_jobId_fallback keywords jobs, ?_⟩
    intro r hr
    obtain ⟨job, -, rfl⟩ := List.mem_map.mp hr
    exact fallbackScore_bounds keywords job
  rcases jobs with - | ⟨j, rest⟩
  · simp [scoreJobsForResume]
  · have hne : (j :: rest : List Job).isEmpty = false := rfl
    simp only [scoreJobsForResume, hne, Bool.false_eq_true, if_false]
    refine ⟨?_, ?_, by simp⟩ <;>
      rcases llm with st | r
    · exact fallback_part.1
    · rcases hx : extractedScores r with - | scores <;> simp only [hx]
      · exact fallback_part.1
      · exact map_jobId_llmPath _ _
    · exact fallback_part.2
    · rcases hx : extractedScores r with - | scores <;> simp only [hx]
      · exact fallback_part.2
      · intro x hmem
        exact llmPathScore_jobId _ _ hmem

/-- C2 witness: the properties at a concrete one-job input on the
fallback path. -/
theorem C2_score_completeness_witness :
    (scoreJobsForResume ["python"] [pyJob] (.callFailed none)).map ScoreResult.jobId =
      [pyJob].map Job.id ∧
    (∀ r ∈ scoreJobsForResume ["python"] [pyJob] (.callFailed none),
      0 ≤ r.score ∧ r.score ≤ 100) ∧
    ([pyJob] = ([] : List Job) →
      scoreJobsForResume ["python"] [pyJob] (.callFailed none) = []) :=
  C2_score_completeness ["python"] [pyJob] (.callFailed none)

/-! ## C3 — the fallback formula -/

lemma fallbackScore_score_def (keywords : List String) (job : Job) :
    (fallbackScore keywords job).score =
      (if keywords.length > 0 then
        jsRound (min 100 (50 +
          (((keywords.filter (fun kw => keywordMatched (fallbackJobText job) kw)).length : ℚ) /
            (keywords.length : ℚ)) * 50))
      else jsRound 50) := by
  rw [fallbackScore]
  by_cases h : keywords.length > 0 <;> simp [h]

/-- C3 counterexample: with the single keyword `""`, the code's fallback
score is `50` (the empty keyword is filtered out before matching), while
the claim's formula — a keyword is matched exactly when it occurs
case-insensitively as a substring — counts it as matched (the empty
string is a substring of everything) and yields `100`. -/
theorem C3_counterexample :
    (fallbackScore [""] pyJob).score = 50 ∧
    claimFallbackScoreValue [""] pyJob = 100 ∧
    (fallbackScore [""] pyJob).score ≠ claimFallbackScoreValue [""] pyJob := by
  have h1 : (fallbackScore [""] pyJob).score = 50 := by
    have hm : ((["" ] : List String).filter
        (fun kw => keywordMatched (fallbackJobText pyJob) kw)).length = 0 := by decide
    rw [fallbackScore_score_def, hm]
    norm_num [jsRound]
  have h2 : claimFallbackScoreValue [""] pyJob = 100 := by
    have hc : claimMatchedCount [""] pyJob = 1 := by decide
    rw [claimFallbackScoreValue, hc]
    norm_num [jsRound]
  exact ⟨h1, h2, by rw [h1, h2]; decide⟩

/-- C3 (amended): on the fallback path each job's score is
`round(50 + 50 * (matched / total))` where a keyword counts as matched
exactly when it is nonempty, not whitespace-only, and case-insensitively
occurs as a substring of the concatenated job title+company+description;
zero keywords give every job exactly `50`; and with keywords
`["python", "rust"]` and a job text containing only `"python"` the score
is `75`. -/
theorem C3_amended_fallback_formula (keywords : List String) (job : Job) :
    (fallbackScore keywords job).jobId = job.id ∧
    (fallbackScore keywords job).score = amendedFallbackScoreValue keywords job ∧
    fallbackScore [] job = ⟨job.id, 50⟩ ∧
    (fallbackScore ["python", "rust"] pyJob).score = 75 := by
  have zero_case : ∀ j : Job, fallbackScore [] j = ⟨j.id, 50⟩ := by
    intro j
    rw [fallbackScore]
    simp [jsRound_fifty]
  refine ⟨rfl, ?_, zero_case job, ?_⟩
  · rw [fallbackScore_score_def, amendedFallbackScoreValue]
    by_cases hk : keywords.length = 0
    · simp [hk, jsRound_fifty]
    · have hkpos : 0 < keywords.length := Nat.pos_of_ne_zero hk
      simp only [hk, if_false, hkpos, if_true]
      have hcount : amendedMatchedCount keywords job =
          (keywords.filter (fun kw => keywordMatched (fallbackJobText job) kw)).length := rfl
      rw [hcount]
      set m : ℕ := (keywords.filter (fun kw => keywordMatched (fallbackJobText job) kw)).length
      have hmn : m ≤ keywords.length := List.length_filter_le _ _
      have hn : (0 : ℚ) < (keywords.length : ℚ) := by exact_mod_cast hkpos
      have hratio : ((m : ℚ) / (keywords.length : ℚ)) ≤ 1 :=
        (div_le_one hn).mpr (by exact_mod_cast hmn)
      have hmin : min (100 : ℚ) (50 + ((m : ℚ) / (keywords.length : ℚ)) * 50) =
          50 + ((m : ℚ) / (keywords.length : ℚ)) * 50 :=
        min_eq_right (by nlinarith)
      rw [hmin, mul_comm ((m : ℚ) / (keywords.length : ℚ)) 50]
  · have hm : ((["python", "rust"] : List String).filter
        (fun kw => keywordMatched (fallbackJobText pyJob) kw)).length = 1 := by decide
    rw [fallbackScore_score_def, hm]
    norm_num [jsRound]

/-- C3 witness: the amended formula at a concrete input. -/
theorem C3_amended_witness :
    (fallbackScore ["python", "rust"] pyJob).jobId = pyJob.id ∧
    (fallbackScore ["python", "rust"] pyJob).score =
      amendedFallbackScoreValue ["python", "rust"] pyJob ∧
    fallbackScore [] pyJob = ⟨pyJob.id, 50⟩ ∧
    (fallbackScore ["python", "rust"] pyJob).score = 75 :=
  C3_amended_fallback_formula ["python", "rust"] pyJob

/-! ## C4 and C5 — LLM-path defaulting and error fallback -/

/-- C4: on the LLM path, a job whose id has no entry in the parsed
response gets exactly `50` (not `0`); and a job whose entry carries a
numeric score `q` gets `q` rounded to the nearest integer and then
clamped into `[0, 100]`. -/
theorem C4_missing_llm_score_defaults_to_50
    (keywords : List String) (jobs : List Job) (entries : List ScoreEntry)
    (i : ℕ) (job : Job) (hj : jobs[i]? = some job) :
    ((∀ e ∈ entries, e.jobId ≠ job.id) →
      (scoreJobsForResume keywords jobs (.responded (.scoresField entries)))[i]? =
        some ⟨job.id, 50⟩) ∧
    (∀ e q, entries.find? (fun s => s.jobId == job.id) = some e → e.score = some q →
      (scoreJobsForResume keywords jobs (.responded (.scoresField entries)))[i]? =
        some ⟨job.id, max 0 (min 100 (jsRound q))⟩) := by
  have hne : jobs.isEmpty = false := by
    cases jobs
    · simp at hj
    · rfl
  have hred : scoreJobsForResume keywords jobs (.responded (.scoresField entries)) =
      llmPathScores jobs entries := by
    simp [scoreJobsForResume, hne, extractedScores]
  constructor
  · intro hmiss
    have hfind : entries.find? (fun s => s.jobId == job.id) = none := by
      apply List.find?_eq_none.mpr
      intro e he
      simpa using hmiss e he
    rw [hred, llmPathScores, List.getElem?_map, hj]
    simp [hfind, validateScore_fifty]
  · intro e q hfind hscore
    rw [hred, llmPathScores, List.getElem?_map, hj]
    simp [hfind, hscore, validateScore]

/-- C4 witness: with an empty parsed score list, the one job of a
singleton input is scored exactly `50`. -/
theorem C4_missing_llm_score_defaults_to_50_witness :
    (scoreJobsForResume [] [pyJob] (.responded (.scoresField [])))[0]? =
      some ⟨pyJob.id, 50⟩ :=
  (C4_missing_llm_score_defaults_to_50 [] [pyJob] [] 0 pyJob rfl).1 (by simp)

/-- C5: an unparseable LLM body (e.g. the literal `"not json"`, modelled
by `LLMResponse.notJson`) or a failed LLM call (exhausted retries or a
non-retryable error, modelled by `LLMResult.callFailed`) never throws:
`scoreJobsForResume` returns the keyword-fallback scores for all input
jobs in both cases. -/
theorem C5_llm_failure_falls_back (keywords : List String) (jobs : List Job)
    (st : Option ℤ) :
    scoreJobsForResume keywords jobs (.responded .notJson) =
      keywordFallbackScores keywords jobs ∧
    scoreJobsForResume keywords jobs (.callFailed st) =
      keywordFallbackScores keywords jobs := by
  cases jobs <;> simp [scoreJobsForResume, keywordFallbackScores, extractedScores]

/-- C5 witness: the fallback equalities at a concrete input. -/
theorem C5_llm_failure_falls_back_witness :
    scoreJobsForResume ["python"] [pyJob] (.responded .notJson) =
      keywordFallbackScores ["python"] [pyJob] ∧
    scoreJobsForResume ["python"] [pyJob] (.callFailed none) =
      keywordFallbackScores ["python"] [pyJob] :=
  C5_llm_failure_falls_back ["python"] [pyJob] none

/-! ## C9 — retry policy of the LLM call -/

lemma withRetryAux_attempts_le {E A : Type} (fn : ℕ → Except E A) (ret : E → Bool)
    (M : ℕ) : ∀ (r a d : ℕ), (withRetryAux fn ret M a d r).attempts ≤ a + r + 1 := by
  intro r
  induction r with
  | zero =>
    intro a d
    rw [withRetryAux]
    cases fn a <;> simp
  | succ r ih =>
    intro a d
    rw [withRetryAux]
    cases fn a with
    | ok v => simp
    | error e =>
      by_cases hr : ret e
      · simpa [hr] using (ih (a + 1) (min (d * 2) M)).trans (by omega)
      · simp [hr]

lemma withRetryAux_delays_bounded {E A : Type} (fn : ℕ → Except E A) (ret : E → Bool)
    (M : ℕ) : ∀ (r a d : ℕ), d ≤ M →
    ∀ x ∈ (withRetryAux fn ret M a d r).delays, d ≤ x ∧ x ≤ M := by
  intro r
  induction r with
  | zero =>
    intro a d _ x hx
    rw [withRetryAux] at hx
    rcases hfa : fn a with v | e <;> rw [hfa] at hx <;> simp at hx
  | succ r ih =>
    intro a d hdM x hx
    rw [withRetryAux] at hx
    cases hfa : fn a with
    | ok v => rw [hfa] at hx; simp at hx
    | error e =>
      rw [hfa] at hx
      by_cases hr : ret e
      · simp only [hr, if_true, List.mem_cons] at hx
        rcases hx with rfl | hx
        · exact ⟨le_refl _, hdM⟩
        · have hd' : min (d * 2) M ≤ M := min_le_right _ _
          have := ih (a + 1) (min (d * 2) M) hd' x hx
          exact ⟨le_trans (le_min (by omega) hdM) this.1, this.2⟩
      · simp [hr] at hx

/-- C9 counterexample: with the options `scoreJobsForResume` passes
(`maxRetries: 3`) and an error that always carries status `500`, the
call is invoked four times, not at most three — `maxRetries: 3` bounds
the retries, so up to `3 + 1` attempts are made. -/
theorem C9_counterexample :
    ¬ ((scoreJobsRetry (fun _ => Except.error (some 500) : ℕ → Except LLMError Unit)).attempts ≤ 3) := by
  decide

/-- C9 (amended): the LLM call of `scoreJobsForResume` is retried with
exponential backoff starting at 1000 ms (then doubled, capped at the
default `maxDelay` of 10000 ms), makes at most 4 attempts (1 initial +
`maxRetries = 3` retries), and retries exactly on errors whose status is
`429` or at least `500`; an error with any other status, or without a
status, fails on the first attempt with no retry and no sleep. -/
theorem C9_amended_retry_policy :
    (∀ (A : Type) (fn : ℕ → Except LLMError A), (scoreJobsRetry fn).attempts ≤ 4) ∧
    (∀ (A : Type) (fn : ℕ → Except LLMError A) (e : LLMError),
      fn 0 = .error e → scoreRetryable e = false →
      (scoreJobsRetry fn).result = .error e ∧ (scoreJobsRetry fn).attempts = 1 ∧
        (scoreJobsRetry fn).delays = []) ∧
    (∀ st : LLMError, scoreRetryable st = true ↔
      ∃ s : ℤ, st = some s ∧ (s = 429 ∨ 500 ≤ s)) ∧
    ((scoreJobsRetry (fun _ => Except.error (some 500) : ℕ → Except LLMError Unit)).attempts = 4 ∧
     (scoreJobsRetry (fun _ => Except.error (some 500) : ℕ → Except LLMError Unit)).delays =
       [1000, 2000, 4000]) ∧
    (∀ (A : Type) (fn : ℕ → Except LLMError A),
      ∀ x ∈ (scoreJobsRetry fn).delays, 1000 ≤ x ∧ x ≤ 10000) := by
  refine ⟨?_, ?_, ?_, ⟨by decide, by decide⟩, ?_⟩
  · intro A fn
    simpa using withRetryAux_attempts_le fn scoreRetryable 10000 3 0 1000
  · intro A fn e hfn hret
    rw [scoreJobsRetry, withRetry, withRetryAux, hfn]
    simp [hret]
  · intro st
    cases st with
    | none => simp [scoreRetryable]
    | some s =>
      simp only [scoreRetryable, Bool.or_eq_true, beq_iff_eq, decide_eq_true_eq]
      constructor
      · rintro (h | h) <;> exact ⟨s, rfl, by omega⟩
      · rintro ⟨s', hs', h⟩
        cases hs'
        omega
  · intro A fn x hx
    exact withRetryAux_delays_bounded fn scoreRetryable 10000 3 0 1000 (by omega) x hx

/-- C9 witness: the non-retryable case at a concrete error without a
status field. -/
theorem C9_amended_retry_policy_witness :
    (scoreJobsRetry (fun _ => Except.error none : ℕ → Except LLMError Unit)).result =
      .error none ∧
    (scoreJobsRetry (fun _ => Except.error none : ℕ → Except LLMError Unit)).attempts = 1 ∧
    (scoreJobsRetry (fun _ => Except.error none : ℕ → Except LLMError Unit)).delays = [] :=
  C9_amended_retry_policy.2.1 Unit (fun _ => Except.error none) none rfl rfl

/-! ## C1 — identity of the existing-posting lookup -/

/-- C1 counterexample: the persisted row `rowA` and the scraped job
`jobB` are both placeholders (`sourceUrl` is the sentinel `"#"`) and
differ in title, company and location, yet the lookup reconciles them:
the `OR` of the `findFirst` clause keeps the `sourceUrl`-equality
disjunct even for the sentinel, so `jobB` matches `rowA` through
`sourceUrl = "#"` and the sync updates `rowA` in place (one `updated`,
no new row) instead of creating a second posting. -/
theorem C1_counterexample :
    jobB.sourceUrl = "#" ∧ rowA.sourceUrl = some "#" ∧
    (jobB.title ≠ rowA.title ∧ jobB.company ≠ rowA.company ∧
      jobB.location ≠ rowA.location) ∧
    findExistingJob jobB [rowA] = some rowA ∧
    (syncOneJob 9 none ⟨[rowA], 1, 0, 0, []⟩ jobB).updated = 1 ∧
    (syncOneJob 9 none ⟨[rowA], 1, 0, 0, []⟩ jobB).created = 0 ∧
    (syncOneJob 9 none ⟨[rowA], 1, 0, 0, []⟩ jobB).db = [updatedRow 9 jobB rowA] := by
  decide

/-- C1 (amended): a scraped job with a real (non-`"#"`, nonempty)
`sourceUrl` is matched solely by `sourceUrl` equality; a job whose
`sourceUrl` is the sentinel `"#"` or absent is matched by `sourceUrl`
equality OR by exact equality of the (title, company, location) triple —
so two placeholder postings sharing the sentinel can be reconciled to
the same persisted row even when their triples differ. -/
theorem C1_amended_lookup_identity (j : ScrapedJob) (db : List JobRow) :
    (j.sourceUrl ≠ "#" → j.sourceUrl ≠ "" →
      ((findExistingJob j db).isSome ↔
        ∃ row ∈ db, row.sourceUrl = some j.sourceUrl)) ∧
    (j.sourceUrl = "#" ∨ j.sourceUrl = "" →
      ((findExistingJob j db).isSome ↔
        ∃ row ∈ db, row.sourceUrl = some j.sourceUrl ∨
          (row.title = j.title ∧ row.company = j.company ∧
            row.location = j.location))) := by
  constructor
  · intro h1 h2
    rw [findExistingJob, List.find?_isSome]
    apply exists_congr
    intro row
    simp [jobMatches, h1, h2]
  · intro hph
    rw [findExistingJob, List.find?_isSome]
    apply exists_congr
    intro row
    rcases hph with hph | hph <;> simp [jobMatches, hph, and_assoc]

/-- C1 witness: the placeholder characterization applied to the concrete
collision of `jobB` with `rowA`. -/
theorem C1_amended_lookup_identity_witness :
    (findExistingJob jobB [rowA]).isSome ↔
      ∃ row ∈ [rowA], row.sourceUrl = some jobB.sourceUrl ∨
        (row.title = jobB.title ∧ row.company = jobB.company ∧
          row.location = jobB.location) :=
  (C1_amended_lookup_identity jobB [rowA]).2 (Or.inl rfl)

/-! ## C6 and C7 — sync failure semantics and the update branch -/

/-- C6: when the fetch from the scraping collaborator throws, or returns
an empty list, `syncJobsToDatabase` raises no exception and returns a
`SyncResult` with `total = 0`, `created = 0`, `updated = 0` and a
non-empty `errors` list holding an explanatory string, leaving the
database untouched. -/
theorem C6_fetch_failure_is_soft (msg : String) (now : ℕ)
    (failures : ℕ → Option String) (db : List JobRow) (nextId : ℕ) :
    syncJobsToDatabase (.error msg) now failures db nextId =
      (⟨0, 0, 0, ["Failed to sync jobs: " ++ msg]⟩, db) ∧
    (syncJobsToDatabase (.error msg) now failures db nextId).1.errors ≠ [] ∧
    syncJobsToDatabase (.ok []) now failures db nextId =
      (⟨0, 0, 0, ["No jobs fetched from Browser AI"]⟩, db) ∧
    (syncJobsToDatabase (.ok []) now failures db nextId).1.errors ≠ [] := by
  refine ⟨rfl, by simp [syncJobsToDatabase], rfl, by simp [syncJobsToDatabase]⟩

/-- C6 witness: the soft-failure results at a concrete input. -/
theorem C6_fetch_failure_is_soft_witness :
    syncJobsToDatabase (.error "network down") 9 (fun _ => none) [rowA] 1 =
      (⟨0, 0, 0, ["Failed to sync jobs: " ++ "network down"]⟩, [rowA]) ∧
    (syncJobsToDatabase (.error "network down") 9 (fun _ => none) [rowA] 1).1.errors ≠ [] ∧
    syncJobsToDatabase (.ok []) 9 (fun _ => none) [rowA] 1 =
      (⟨0, 0, 0, ["No jobs fetched from Browser AI"]⟩, [rowA]) ∧
    (syncJobsToDatabase (.ok []) 9 (fun _ => none) [rowA] 1).1.errors ≠ [] :=
  C6_fetch_failure_is_soft "network down" 9 (fun _ => none) [rowA] 1

/-- C7: when the lookup finds an existing posting and persistence
succeeds, the item is counted as updated (not created), the found row is
replaced by one whose scalar fields all carry the scraped values, whose
`updatedAt` is now, and whose `id`, `createdAt` and `postedAt` are
unchanged. -/
theorem C7_update_overwrites_scalars (now : ℕ) (st : SyncState) (j : ScrapedJob)
    (row : JobRow) (hfind : findExistingJob j st.db = some row)
    (hurl : j.sourceUrl ≠ "") :
    syncOneJob now none st j =
      { st with db := dbUpdate st.db row.id (updatedRow now j row),
                updated := st.updated + 1 } ∧
    (updatedRow now j row).title = j.title ∧
    (updatedRow now j row).company = j.company ∧
    (updatedRow now j row).location = j.location ∧
    (updatedRow now j row).jobType = j.jobType ∧
    (updatedRow now j row).shortDescription = j.shortDescription ∧
    (updatedRow now j row).fullDescription = j.fullDescription ∧
    (updatedRow now j row).sourceUrl = some j.sourceUrl ∧
    (updatedRow now j row).updatedAt = now ∧
    (updatedRow now j row).id = row.id ∧
    (updatedRow now j row).createdAt = row.createdAt ∧
    (updatedRow now j row).postedAt = row.postedAt ∧
    (syncOneJob now none st j).updated = st.updated + 1 ∧
    (syncOneJob now none st j).created = st.created := by
  have hstep : syncOneJob now none st j =
      { st with db := dbUpdate st.db row.id (updatedRow now j row),
                updated := st.updated + 1 } := by
    rw [syncOneJob]
    simp [hfind]
  refine ⟨hstep, rfl, rfl, rfl, rfl, rfl, rfl, ?_, rfl, rfl, rfl, rfl, ?_, ?_⟩
  · rw [updatedRow]
    simp [hurl]
  · rw [hstep]
  · rw [hstep]

/-- C7 witness: the update branch at the concrete match of `jobB`
against `rowA`. -/
theorem C7_update_overwrites_scalars_witness :
    (updatedRow 9 jobB rowA).sourceUrl = some jobB.sourceUrl :=
  (C7_update_overwrites_scalars 9 ⟨[rowA], 1, 0, 0, []⟩ jobB rowA (by decide)
    (by decide)).2.2.2.2.2.2.2.1

/-! ## C8 — per-item failure isolation and the counting invariant -/

lemma syncOneJob_count (now : ℕ) (f : Option String) (st : SyncState) (j : ScrapedJob) :
    (syncOneJob now f st j).created + (syncOneJob now f st j).updated +
      (syncOneJob now f st j).errors.length =
    st.created + st.updated + st.errors.length + 1 := by
  rcases f with - | msg
  · rw [syncOneJob]
    rcases h : findExistingJob j st.db with - | row <;> simp [h] <;> omega
  · rw [syncOneJob]
    simp
    omega

lemma syncOneJob_errors_mono (now : ℕ) (f : Option String) (st : SyncState)
    (j : ScrapedJob) {x : String} (hx : x ∈ st.errors) :
    x ∈ (syncOneJob now f st j).errors := by
  rcases f with - | msg
  · rw [syncOneJob]
    rcases h : findExistingJob j st.db with - | row <;> simp [h, hx]
  · rw [syncOneJob]
    simp [hx]

lemma syncAllJobs_count (now : ℕ) (failures : ℕ → Option String) :
    ∀ (jobs : List ScrapedJob) (i : ℕ) (st : SyncState),
    (syncAllJobs now failures jobs i st).created +
      (syncAllJobs now failures jobs i st).updated +
      (syncAllJobs now failures jobs i st).errors.length =
    st.created + st.updated + st.errors.length + jobs.length := by
  intro jobs
  induction jobs with
  | nil => intro i st; simp [syncAllJobs]
  | cons j rest ih =>
    intro i st
    rw [syncAllJobs, ih, syncOneJob_count]
    simp
    omega

lemma syncAllJobs_errors_mono (now : ℕ) (failures : ℕ → Option String) :
    ∀ (jobs : List ScrapedJob) (i : ℕ) (st : SyncState) (x : String),
    x ∈ st.errors → x ∈ (syncAllJobs now failures jobs i st).errors := by
  intro jobs
  induction jobs with
  | nil => intro i st x hx; simpa [syncAllJobs] using hx
  | cons j rest ih =>
    intro i st x hx
    rw [syncAllJobs]
    exact ih _ _ _ (syncOneJob_errors_mono now (failures i) st j hx)

lemma syncAllJobs_error_mem (now : ℕ) (failures : ℕ → Option String) :
    ∀ (jobs : List ScrapedJob) (k i : ℕ) (st : SyncState) (j : ScrapedJob) (msg : String),
    jobs[k]? = some j → failures (i + k) = some msg →
    ("Error syncing job \"" ++ j.title ++ "\" at " ++ j.company ++ ": " ++ msg) ∈
      (syncAllJobs now failures jobs i st).errors := by
  intro jobs
  induction jobs with
  | nil => intro k i st j msg hk; simp at hk
  | cons a rest ih =>
    intro k i st j msg hk hf
    rcases k with - | k
    · simp only [List.getElem?_cons_zero, Option.some_inj] at hk
      subst hk
      rw [syncAllJobs]
      apply syncAllJobs_errors_mono
      rw [Nat.add_zero] at hf
      rw [syncOneJob.eq_def, hf]
      simp
    · simp only [List.getElem?_cons_succ] at hk
      rw [syncAllJobs]
      have harith : i + 1 + k = i + (k + 1) := by omega
      exact ih k (i + 1) _ j msg hk (by rw [harith]; exact hf)

/-- C8: on the non-empty fetch path, one item's persistence failure adds
exactly one descriptive error string and aborts nothing: the run always
completes with `total` equal to the number of fetched jobs and
`created + updated + errors.length = total`, and each failing item's
message appears in `errors`. -/
theorem C8_per_item_failure_isolated (jobs : List ScrapedJob) (now : ℕ)
    (failures : ℕ → Option String) (db : List JobRow) (nextId : ℕ)
    (hne : jobs ≠ []) :
    (syncJobsToDatabase (.ok jobs) now failures db nextId).1.total = jobs.length ∧
    (syncJobsToDatabase (.ok jobs) now failures db nextId).1.created +
      (syncJobsToDatabase (.ok jobs) now failures db nextId).1.updated +
      (syncJobsToDatabase (.ok jobs) now failures db nextId).1.errors.length =
      jobs.length ∧
    (∀ (k : ℕ) (j : ScrapedJob) (msg : String),
      jobs[k]? = some j → failures k = some msg →
      ("Error syncing job \"" ++ j.title ++ "\" at " ++ j.company ++ ": " ++ msg) ∈
        (syncJobsToDatabase (.ok jobs) now failures db nextId).1.errors) := by
  have hempty : jobs.isEmpty = false := by
    rcases jobs with - | ⟨a, rest⟩
    · exact absurd rfl hne
    · rfl
  simp only [syncJobsToDatabase, hempty, Bool.false_eq_true, if_false]
  refine ⟨by trivial, ?_, ?_⟩
  · simpa using syncAllJobs_count now failures jobs 0 ⟨db, nextId, 0, 0, []⟩
  · intro k j msg hk hf
    exact syncAllJobs_error_mem now failures jobs k 0 ⟨db, nextId, 0, 0, []⟩ j msg hk
      (by simpa using hf)

/-- C8 witness: a single-item run whose item fails to persist yields
`total = 1`, `created + updated + errors.length = 1`, and the
descriptive message in `errors`. -/
theorem C8_per_item_failure_isolated_witness :
    (syncJobsToDatabase (.ok [jobB]) 9 (fun _ => some "boom") [] 0).1.total = 1 ∧
    (syncJobsToDatabase (.ok [jobB]) 9 (fun _ => some "boom") [] 0).1.created +
      (syncJobsToDatabase (.ok [jobB]) 9 (fun _ => some "boom") [] 0).1.updated +
      (syncJobsToDatabase (.ok [jobB]) 9 (fun _ => some "boom") [] 0).1.errors.length = 1 ∧
    (∀ (k : ℕ) (j : ScrapedJob) (msg : String),
      ([jobB] : List ScrapedJob)[k]? = some j →
      (fun _ => some "boom") k = some msg →
      ("Error syncing job \"" ++ j.title ++ "\" at " ++ j.company ++ ": " ++ msg) ∈
        (syncJobsToDatabase (.ok [jobB]) 9 (fun _ => some "boom") [] 0).1.errors) :=
  C8_per_item_failure_isolated [jobB] 9 (fun _ => some "boom") [] 0 (by simp)

/-! ## C10 — `fetchLatestJobs` never yields an empty list -/

lemma flatten_eq_nil_of_all_nil {α : Type} :
    ∀ ls : List (List α), (∀ l ∈ ls, l = []) → ls.flatten = [] := by
  intro ls
  induction ls with
  | nil => intro _; rfl
  | cons a rest ih =>
    intro h
    rw [List.flatten_cons, h a (List.mem_cons_self a rest), ih fun l hl => h l (List.mem_cons_of_mem a hl)]
    rfl

lemma getMockJobs_ne_nil : getMockJobs ≠ [] := by
  rw [getMockJobs]
  exact List.cons_ne_nil _ _

/-- C10: `fetchLatestJobs` never returns an empty list (and, being a
total function of its collaborator oracle, never throws): a missing API
key, no configured robot ids, robots that all yield zero jobs, or a
thrown fetch all fall back to the fixed two-element mock list, so the
empty-fetch branch of `syncJobsToDatabase` is unreachable through this
collaborator. -/
theorem C10_fetch_never_empty (cfg : BrowseAIConfig)
    (rf : Except Unit (String → List ScrapedJob)) :
    fetchLatestJobs cfg rf ≠ [] ∧
    getMockJobs.length = 2 ∧
    (∀ u : Unit, rf = .error u → fetchLatestJobs cfg rf = getMockJobs) ∧
    (cfg.apiKey = "" → fetchLatestJobs cfg rf = getMockJobs) ∧
    (configuredRobotIds cfg = [] → fetchLatestJobs cfg rf = getMockJobs) ∧
    (∀ f, rf = .ok f → (∀ rid ∈ configuredRobotIds cfg, f rid = []) →
      fetchLatestJobs cfg rf = getMockJobs) ∧
    (∀ (now : ℕ) (failures : ℕ → Option String) (db : List JobRow) (nextId : ℕ),
      (syncJobsToDatabase (.ok (fetchLatestJobs cfg rf)) now failures db nextId).1.total =
        (fetchLatestJobs cfg rf).length ∧
      (fetchLatestJobs cfg rf).length ≠ 0) := by
  have hne : fetchLatestJobs cfg rf ≠ [] := by
    rcases rf with - | f
    · exact getMockJobs_ne_nil
    · rw [fetchLatestJobs]
      by_cases h1 : cfg.apiKey = ""
      · simpa [h1] using getMockJobs_ne_nil
      · simp only [h1, if_false]
        by_cases h2 : (configuredRobotIds cfg).isEmpty
        · simpa [h2] using getMockJobs_ne_nil
        · simp only [h2, Bool.false_eq_true, if_false]
          by_cases h3 : (dedupeJobs ((configuredRobotIds cfg).map f).flatten).isEmpty
          · simpa [h3] using getMockJobs_ne_nil
          · simp only [h3, Bool.false_eq_true, if_false]
            intro hnil
            rw [hnil] at h3
            exact h3 rfl
  refine ⟨hne, rfl, ?_, ?_, ?_, ?_, ?_⟩
  · rintro u rfl
    rfl
  · intro h1
    rcases rf with - | f
    · rfl
    · rw [fetchLatestJobs]
      simp [h1]
  · intro hids
    rcases rf with - | f
    · rfl
    · rw [fetchLatestJobs]
      by_cases h1 : cfg.apiKey = ""
      · simp [h1]
      · simp [h1, hids]
  · rintro f rfl hall
    rw [fetchLatestJobs]
    by_cases h1 : cfg.apiKey = ""
    · simp [h1]
    · have hflat : ((configuredRobotIds cfg).map f).flatten = [] := by
        apply flatten_eq_nil_of_all_nil
        intro l hl
        obtain ⟨rid, hrid, rfl⟩ := List.mem_map.mp hl
        exact hall rid hrid
      by_cases h2 : (configuredRobotIds cfg).isEmpty
      · simp [h1, h2]
      · simp [h1, h2, hflat, dedupeJobs, dedupeJobsAux]
  · intro now failures db nextId
    have hempty : (fetchLatestJobs cfg rf).isEmpty = false := by
      rcases hfj : fetchLatestJobs cfg rf with - | ⟨a, rest⟩
      · exact absurd hfj hne
      · rfl
    constructor
    · simp only [syncJobsToDatabase, hempty, Bool.false_eq_true, if_false]
    · intro hlen
      exact hne (List.length_eq_zero.mp hlen)

/-- C10 witness: the mock fallback at a concrete configuration with no
API key and a throwing collaborator. -/
theorem C10_fetch_never_empty_witness :
    fetchLatestJobs ⟨"", [], ""⟩ (.error ()) ≠ [] ∧
    getMockJobs.length = 2 ∧
    (∀ u : Unit, (.error () : Except Unit (String → List ScrapedJob)) = .error u →
      fetchLatestJobs ⟨"", [], ""⟩ (.error ()) = getMockJobs) ∧
    ((⟨"", [], ""⟩ : BrowseAIConfig).apiKey = "" →
      fetchLatestJobs ⟨"", [], ""⟩ (.error ()) = getMockJobs) ∧
    (configuredRobotIds ⟨"", [], ""⟩ = [] →
      fetchLatestJobs ⟨"", [], ""⟩ (.error ()) = getMockJobs) ∧
    (∀ f, (.error () : Except Unit (String → List ScrapedJob)) = .ok f →
      (∀ rid ∈ configuredRobotIds ⟨"", [], ""⟩, f rid = []) →
      fetchLatestJobs ⟨"", [], ""⟩ (.error ()) = getMockJobs) ∧
    (∀ (now : ℕ) (failures : ℕ → Option String) (db : List JobRow) (nextId : ℕ),
      (syncJobsToDatabase (.ok (fetchLatestJobs ⟨"", [], ""⟩ (.error ())))
          now failures db nextId).1.total =
        (fetchLatestJobs ⟨"", [], ""⟩ (.error ())).length ∧
      (fetchLatestJobs ⟨"", [], ""⟩ (.error ())).length ≠ 0) :=
  C10_fetch_never_empty ⟨"", [], ""⟩ (.error ())
